import Mathlib

/- Verification of the bracket engine of `src/app.py` (a Streamlit
single-elimination tournament generator).  The engine's pure helpers and
its stateful button handlers are shallowly embedded below: session state
becomes an explicit `BracketState` record threaded through each handler,
Python's `random.shuffle` becomes an explicit `shuffle` parameter, and
Python's unbounded integers become `ℤ` (or `ℕ` for list lengths). -/

/-! ## Utilities (`src/app.py` lines 54-58) -/

/-- Embedding of `is_power_of_two(n): return n > 0 and (n & (n - 1)) == 0`
(`src/app.py` lines 54-55).  Python integers are unbounded signed integers,
so the argument is `ℤ`; `Int.land` is two's-complement bitwise AND,
matching Python's `&` on arbitrary integers.  Python's `and` is a
short-circuit on pure operands, so `&&` computes the same value. -/
def is_power_of_two (n : ℤ) : Bool :=
  decide (0 < n) && decide (Int.land n (n - 1) = 0)

/-- Embedding of `next_power_of_two(n): return 1 if n <= 1 else
2 ** math.ceil(math.log2(n))` (`src/app.py` lines 57-58).  The source
computes through IEEE-754 binary64: `n` is converted to a double and
`math.log2` is the platform's (at least faithfully rounded) libm log2,
while `math.ceil` and `2 ** k` are exact integer operations.  This model
replaces the two float steps by exact arithmetic: for `2 ≤ n` the exact
ceiling of the base-2 logarithm is `Nat.clog 2 n` (the least `k` with
`n ≤ 2 ^ k`).  The model provably coincides with the program for every
`n ≤ 2 ^ 45`: conversion to double is exact below `2 ^ 53`; a faithfully
rounded `log2` is exact on powers of two (the true result is itself a
double); and for a non-power of two with `2 ^ j < n < 2 ^ (j + 1)`,
`j ≤ 44`, the true logarithm exceeds `j` by at least `2 ^ (-44)`, more
than one ulp of the result, so any faithful rounding lands strictly
above `j` and at most `j + 1`, and the ceiling is exactly `j + 1`.
Beyond that bound the program can return a power of two smaller than
`n`: `float(2 ^ 53 + 1)` rounds to `2 ^ 53` (ties to even) and `log2`
then returns exactly `53.0`, so the program yields `2 ^ 53 < n`; and a
correctly rounded `log2` maps `2 ^ 49 + 1` — true logarithm about
`49 + 2.6e-15`, within half an ulp of `49` — to exactly `49.0`,
yielding `2 ^ 49 < n`.  Therefore the theorem below that quantifies
over all pool sizes carries an explicit `≤ 2 ^ 45` bound, and all
concrete evaluations use `n ≤ 4`, where model and program agree.
(`n ≤ 1` never reaches the float path at all.) -/
def next_power_of_two (n : ℕ) : ℕ :=
  if n ≤ 1 then 1 else 2 ^ Nat.clog 2 n

/-! ### Arithmetic facts about the two helpers -/

theorem land_two_mul_pred (m : ℕ) (hm : 0 < m) :
    2 * m &&& (2 * m - 1) = 2 * (m &&& (m - 1)) := by
  apply Nat.eq_of_testBit_eq
  intro i
  cases i with
  | zero =>
    have h1 : 2 * m % 2 = 0 := by omega
    have h2 : 2 * (m &&& (m - 1)) % 2 = 0 := by omega
    simp [Nat.testBit_land, Nat.testBit_zero, h1, h2]
  | succ i =>
    have h1 : 2 * m / 2 = m := by omega
    have h2 : (2 * m - 1) / 2 = m - 1 := by omega
    have h3 : 2 * (m &&& (m - 1)) / 2 = m &&& (m - 1) := by omega
    simp only [Nat.testBit_land]
    simp only [Nat.testBit_succ]
    rw [h1, h2, h3, Nat.testBit_land]

theorem land_two_mul_add_one (m : ℕ) :
    (2 * m + 1) &&& (2 * m + 1 - 1) = 2 * m := by
  apply Nat.eq_of_testBit_eq
  intro i
  cases i with
  | zero =>
    have h1 : (2 * m + 1) % 2 = 1 := by omega
    have h2 : 2 * m % 2 = 0 := by omega
    simp [Nat.testBit_land, Nat.testBit_zero, h1, h2]
  | succ i =>
    have h1 : (2 * m + 1) / 2 = m := by omega
    have h2 : 2 * m / 2 = m := by omega
    have h3 : (2 * m + 1 - 1) / 2 = m := by omega
    simp only [Nat.testBit_land]
    simp only [Nat.testBit_succ]
    simp [h1, h2, h3]

theorem land_pred_eq_zero_iff (n : ℕ) (hn : 0 < n) :
    n &&& (n - 1) = 0 ↔ ∃ k : ℕ, n = 2 ^ k := by
  induction n using Nat.strong_induction_on with
  | _ n ih =>
    rcases Nat.even_or_odd n with ⟨m, hm⟩ | ⟨m, hm⟩
    · have hm' : n = 2 * m := by omega
      have hmpos : 0 < m := by omega
      subst hm'
      rw [land_two_mul_pred m hmpos]
      have hrec := ih m (by omega) hmpos
      constructor
      · intro h
        have : m &&& (m - 1) = 0 := by omega
        obtain ⟨k, hk⟩ := hrec.1 this
        exact ⟨k + 1, by rw [hk]; ring⟩
      · rintro ⟨k, hk⟩
        cases k with
        | zero => omega
        | succ j =>
          have : m = 2 ^ j := by
            have : 2 * m = 2 * 2 ^ j := by rw [hk]; ring
            omega
          have : m &&& (m - 1) = 0 := hrec.2 ⟨j, this⟩
          omega
    · subst hm
      cases Nat.eq_zero_or_pos m with
      | inl h0 =>
        subst h0
        constructor
        · intro _; exact ⟨0, by norm_num⟩
        · intro _; decide
      | inr hmpos =>
        rw [land_two_mul_add_one m]
        constructor
        · intro h; omega
        · rintro ⟨k, hk⟩
          cases k with
          | zero => omega
          | succ j =>
            have h2j : 0 < 2 ^ j := Nat.pos_pow_of_pos j (by norm_num)
            have : 2 * m + 1 = 2 * 2 ^ j := by rw [hk]; ring
            omega

/-- C9: for every integer `n`, `is_power_of_two n` is true iff `n > 0` and
`n` has exactly one set bit, i.e. `n` is one of `1, 2, 4, 8, 16, …`;
it is false for `0` and for all negative `n` (those are not of the form
`2 ^ k`, so the right-hand side excludes them). -/
theorem is_power_of_two_correct (n : ℤ) :
    is_power_of_two n = true ↔ 0 < n ∧ ∃ k : ℕ, n = 2 ^ k := by
  unfold is_power_of_two
  rcases n with m | m
  · cases m with
    | zero => simp
    | succ p =>
      have hpos : (0 : ℤ) < Int.ofNat (p + 1) := by
        rw [Int.ofNat_eq_natCast]
        positivity
      have hsub : (Int.ofNat (p + 1)) - 1 = Int.ofNat p := by
        rw [Int.ofNat_eq_natCast, Int.ofNat_eq_natCast]
        push_cast
        ring
      have hland : Int.land (Int.ofNat (p + 1)) (Int.ofNat (p + 1) - 1)
          = Int.ofNat ((p + 1) &&& p) := by
        rw [hsub]
        rfl
      have hnat := land_pred_eq_zero_iff (p + 1) (Nat.succ_pos p)
      have hp : (p + 1) - 1 = p := by omega
      rw [hp] at hnat
      simp only [Bool.and_eq_true, decide_eq_true_eq, hland]
      constructor
      · rintro ⟨-, hz⟩
        have hz' : (p + 1) &&& p = 0 := by
          rw [Int.ofNat_eq_natCast] at hz
          exact_mod_cast hz
        obtain ⟨k, hk⟩ := hnat.1 hz'
        refine ⟨hpos, k, ?_⟩
        rw [Int.ofNat_eq_natCast, hk]
        push_cast
        ring
      · rintro ⟨-, k, hk⟩
        have hknat : p + 1 = 2 ^ k := by
          rw [Int.ofNat_eq_natCast] at hk
          exact_mod_cast hk
        have h0 : (p + 1) &&& p = 0 := hnat.2 ⟨k, hknat⟩
        refine ⟨hpos, ?_⟩
        rw [h0]
        rfl
  · have hneg : Int.negSucc m < 0 := Int.negSucc_lt_zero m
    constructor
    · intro h
      simp only [Bool.and_eq_true, decide_eq_true_eq] at h
      exact absurd h.1 (by omega)
    · rintro ⟨h, -⟩
      exact absurd h (by omega)

/-- The exact-arithmetic model satisfies the specification formula: it
returns a power of two, at least `n`, and at most every power of two
that is at least `n` (hence the smallest power of two greater than or
equal to `n`), and returns `1` for `n ∈ {0, 1}`.  This is a fact about
the model; per the definition's comment it is a statement about the
program only for `n ≤ 2 ^ 45`, and the program itself violates the
formula at, e.g., `n = 2 ^ 53 + 1`. -/
theorem next_power_of_two_correct (n : ℕ) :
    (∃ k : ℕ, next_power_of_two n = 2 ^ k) ∧
    n ≤ next_power_of_two n ∧
    (∀ m : ℕ, n ≤ 2 ^ m → next_power_of_two n ≤ 2 ^ m) ∧
    next_power_of_two 0 = 1 ∧ next_power_of_two 1 = 1 := by
  refine ⟨?_, ?_, ?_, rfl, rfl⟩
  · unfold next_power_of_two
    split
    · exact ⟨0, rfl⟩
    · exact ⟨Nat.clog 2 n, rfl⟩
  · unfold next_power_of_two
    split
    · omega
    · exact Nat.le_pow_clog (by norm_num) n
  · intro m hm
    unfold next_power_of_two
    split
    · exact Nat.one_le_two_pow
    · exact Nat.pow_le_pow_right (by norm_num)
        ((Nat.le_pow_iff_clog_le (by norm_num)).1 hm)

/-- Concrete instance of `next_power_of_two_correct` at `n = 5`, `m = 3`. -/
theorem next_power_of_two_correct_witness :
    (5 : ℕ) ≤ 2 ^ 3 ∧ next_power_of_two 5 ≤ 2 ^ 3 :=
  ⟨by decide, (next_power_of_two_correct 5).2.2.1 3 (by decide)⟩

/-! ## Round creation (`src/app.py` lines 193-221) -/

/-- The pairing loop `for i in range(0, len(pool) - 1, 2):
matches.append((pool[i], pool[i + 1]))` of `create_round`: consecutive
elements are paired, and a trailing odd element is left unpaired. -/
def pair_up : List String → List (String × String)
  | p1 :: p2 :: rest => (p1, p2) :: pair_up rest
  | _ => []

/-- All player names occurring in a list of matches, in order. -/
def match_players : List (String × String) → List String
  | [] => []
  | (p1, p2) :: rest => p1 :: p2 :: match_players rest

/-- Result of `create_round`: the returned `(matches, bye_players)` pair,
the winners list after the call (the source appends each bye recipient to
`st.session_state.winners` as a side effect), and whether the
`st.error(...)` validation failure was emitted (in which case the source
returns `[], []` early). -/
structure CreateRoundResult where
  matches' : List (String × String)
  byes : List String
  winners : List String
  error : Bool
  deriving Repr, DecidableEq

/-- Embedding of `create_round(pool, round_number, initial=False)`
(`src/app.py` lines 193-221).  `random.shuffle` is modelled by the
explicit `shuffle` parameter (theorems only assume it permutes its
input); `winners` is the session winners list the source mutates. -/
def create_round (shuffle : List String → List String) (winners : List String)
    (pool : List String) (round_number : ℕ) (initial : Bool) : CreateRoundResult :=
  let pool1 := shuffle pool
  if round_number = 1 ∧ initial = true then
    let target := next_power_of_two pool1.length
    let byes_needed := target - pool1.length
    if 0 < byes_needed then
      { matches' := pair_up (pool1.drop byes_needed)
        byes := pool1.take byes_needed
        winners := winners ++ pool1.take byes_needed
        error := false }
    else
      { matches' := pair_up pool1
        byes := []
        winners := winners
        error := false }
  else
    if is_power_of_two (pool1.length : ℤ) = true then
      { matches' := pair_up pool1
        byes := []
        winners := winners
        error := false }
    else
      { matches' := []
        byes := []
        winners := winners
        error := true }

/-! ## Session state and the button handlers -/

/-- The engine's session state (`st.session_state` keys used by the
bracket logic, `src/app.py` lines 21-34). -/
structure BracketState where
  round : ℕ
  matches' : List (String × String)
  winners : List String
  history : List (ℕ × List (String × String × String))
  byes : List String
  initial_players : List String
  round_generated : Bool
  deriving Repr, DecidableEq

/-- The fresh session state (all defaults, `src/app.py` lines 21-34). -/
def init_state : BracketState :=
  { round := 1
    matches' := []
    winners := []
    history := []
    byes := []
    initial_players := []
    round_generated := false }

/-- Messages the `Generate Round Fixtures` handler can emit. -/
inductive GenMsg where
  | ok
  | warnNoEntrants
  | warnNoWinners
  | errNotPowerOfTwo (n : ℕ)
  deriving Repr, DecidableEq

/-- Embedding of the `Generate Round Fixtures` handler
(`src/app.py` lines 227-265).  `source_players` is the entrant list after
the optional duplicate review and auto-disambiguation (lines 229-233),
which are upstream of the engine. -/
def generate_fixtures (shuffle : List String → List String)
    (st : BracketState) (source_players : List String) : BracketState × GenMsg :=
  if st.round = 1 then
    if st.winners ≠ [] then
      let cr := create_round shuffle st.winners st.winners st.round false
      ({ st with matches' := cr.matches', byes := cr.byes,
                 round_generated := true, winners := [] }, GenMsg.ok)
    else if source_players = [] then
      (st, GenMsg.warnNoEntrants)
    else
      let st1 := { st with initial_players := source_players, winners := [] }
      let cr := create_round shuffle ([] : List String) source_players 1 true
      ({ st1 with matches' := cr.matches', byes := cr.byes,
                  winners := cr.winners, round_generated := true }, GenMsg.ok)
  else
    if st.winners = [] then
      (st, GenMsg.warnNoWinners)
    else if is_power_of_two (st.winners.length : ℤ) = false then
      (st, GenMsg.errNotPowerOfTwo st.winners.length)
    else
      let cr := create_round shuffle st.winners st.winners st.round false
      ({ st with matches' := cr.matches', byes := cr.byes,
                 round_generated := true, winners := [] }, GenMsg.ok)

/-- One step of the score loop of the `Submit All Results and Redraw Next
Round` handler (`src/app.py` lines 287-297): the accumulator is
`(winners, current_round_results, any_ties)`. -/
def score_step (acc : List String × List (String × String × String) × Bool)
    (e : String × String × ℤ × ℤ) :
    List String × List (String × String × String) × Bool :=
  let p1 := e.1
  let p2 := e.2.1
  let s1 := e.2.2.1
  let s2 := e.2.2.2
  if s1 = s2 then
    (acc.1, acc.2.1, true)
  else
    let winner := if s1 > s2 then p1 else p2
    (acc.1 ++ [winner], acc.2.1 ++ [(p1, p2, winner)], acc.2.2)

/-- Outcome of a result-submission handler: the new session state,
whether any tie was reported, and the champion announcement (made when
exactly one winner remains). -/
structure SubmitOutcome where
  state : BracketState
  anyTies : Bool
  champion : Option String
  deriving Repr, DecidableEq

/-- Shared tail of both result-submission handlers
(`src/app.py` lines 302-317 and 361-376): append the round's buffered
results to `history` when non-empty, then either announce a champion,
advance to the next round when the winners count is a power of two, or
silently do nothing otherwise. -/
def finish_submission (shuffle : List String → List String)
    (st : BracketState) (winners : List String)
    (buffer : List (String × String × String)) : SubmitOutcome :=
  let history := if buffer = [] then st.history else st.history ++ [(st.round, buffer)]
  let st1 := { st with winners := winners, history := history }
  if winners.length = 1 then
    { state := st1, anyTies := false, champion := winners.head? }
  else if is_power_of_two (winners.length : ℤ) = true then
    let round := st.round + 1
    let cr := create_round shuffle winners winners round false
    { state := { st1 with round := round, matches' := cr.matches', byes := cr.byes,
                          winners := [], round_generated := true }
      anyTies := false
      champion := none }
  else
    { state := st1, anyTies := false, champion := none }

/-- Embedding of the `Submit All Results and Redraw Next Round` handler
(`src/app.py` lines 286-317).  `scores` is the per-match
`(p1, p2, score1, score2)` list built from the form.  If any tie is
detected the source calls `st.stop()` right after the loop, so the
session keeps the winners appended for non-tied entries but `history`,
`matches` and `round` are untouched. -/
def submit_all_results (shuffle : List String → List String)
    (st : BracketState) (scores : List (String × String × ℤ × ℤ)) : SubmitOutcome :=
  let r := scores.foldl score_step (st.winners, [], false)
  let winners := r.1
  let buffer := r.2.1
  let any_ties := r.2.2
  if any_ties then
    { state := { st with winners := winners }, anyTies := true, champion := none }
  else
    finish_submission shuffle st winners buffer

/-! ## Pasted-results parsing (`src/app.py` lines 341-359) -/

/-- Python `str.strip()` on a list of characters. -/
def trimL (l : List Char) : List Char :=
  ((l.dropWhile Char.isWhitespace).reverse.dropWhile Char.isWhitespace).reverse

/-- Helper for `int(...)`: fold a non-signed digit string, failing on any
non-digit character. -/
def parse_digits_aux (acc : ℕ) : List Char → Option ℕ
  | [] => some acc
  | c :: rest =>
    if c.isDigit then parse_digits_aux (10 * acc + (c.toNat - 48)) rest else none

/-- Embedding of Python `int(s)` as used on score fields: surrounding
whitespace is ignored, an optional sign is followed by at least one
decimal digit, and anything else raises (caught by the handler's
`except`, hence `none`). -/
def parse_int_py (l : List Char) : Option ℤ :=
  match trimL l with
  | [] => none
  | '-' :: rest =>
    match rest with
    | [] => none
    | _ => (parse_digits_aux 0 rest).map (fun n => -(n : ℤ))
  | '+' :: rest =>
    match rest with
    | [] => none
    | _ => (parse_digits_aux 0 rest).map (fun n => (n : ℤ))
  | t => (parse_digits_aux 0 t).map (fun n => (n : ℤ))

/-- Python `str.split("vs")`: split on every non-overlapping occurrence of
the two-character separator `vs`, scanning left to right. -/
def splitOnVS : List Char → List (List Char)
  | 'v' :: 's' :: rest => [] :: splitOnVS rest
  | c :: rest =>
    match splitOnVS rest with
    | h :: t => (c :: h) :: t
    | [] => [[c]]
  | [] => [[]]

/-- Embedding of the per-line `try` block of the `Process Pasted Results`
handler (`src/app.py` lines 345-350): `match, result = line.split("=")`,
`p1, p2 = match.split("vs")` (both stripped), `s1, s2 =
result.strip().split("-")`, `s1, s2 = int(s1), int(s2)`.  Any shape
mismatch (a split not yielding exactly two parts, or a non-integer score
field) raises, which the handler reports as a parse error, so this
returns `none`. -/
def parse_line (line : String) : Option (String × String × ℤ × ℤ) :=
  match line.data.splitOn '=' with
  | [m, r] =>
    match splitOnVS m with
    | [a, b] =>
      match (trimL r).splitOn '-' with
      | [x, y] =>
        match parse_int_py x, parse_int_py y with
        | some s1, some s2 => some (String.mk (trimL a), String.mk (trimL b), s1, s2)
        | _, _ => none
      | _ => none
    | _ => none
  | _ => none

/-- What the `Process Pasted Results` handler reports for one input line:
a parse error for that line, a tie message, or a winner message. -/
inductive LineOutcome where
  | parse_error (line : String)
  | tie (p1 p2 : String)
  | win (p1 p2 : String) (s1 s2 : ℤ) (winner : String)
  deriving Repr, DecidableEq

/-- One iteration of the `for line in lines` loop of the handler
(`src/app.py` lines 344-359); the accumulator is
`(winners, current_round_results, reported line outcomes)`. -/
def paste_step (acc : List String × List (String × String × String) × List LineOutcome)
    (line : String) :
    List String × List (String × String × String) × List LineOutcome :=
  match parse_line line with
  | none => (acc.1, acc.2.1, acc.2.2 ++ [LineOutcome.parse_error line])
  | some (p1, p2, s1, s2) =>
    if s1 = s2 then
      (acc.1, acc.2.1, acc.2.2 ++ [LineOutcome.tie p1 p2])
    else
      let winner := if s1 > s2 then p1 else p2
      (acc.1 ++ [winner], acc.2.1 ++ [(p1, p2, winner)],
        acc.2.2 ++ [LineOutcome.win p1 p2 s1 s2 winner])

/-- Outcome of the `Process Pasted Results` handler: the new session
state, the per-line reports, and the champion announcement if made. -/
structure PasteOutcome where
  state : BracketState
  outcomes : List LineOutcome
  champion : Option String
  deriving Repr, DecidableEq

/-- Embedding of the `Process Pasted Results` handler (`src/app.py`
lines 341-376).  `lines` is the pasted text split on newlines, stripped,
with blank lines removed (line 342).  Unlike the form handler there is no
`st.stop()` on ties: a tied or malformed line is reported and skipped,
every other line is committed, and the shared submission tail runs
unconditionally. -/
def process_pasted (shuffle : List String → List String)
    (st : BracketState) (lines : List String) : PasteOutcome :=
  let r := lines.foldl paste_step (st.winners, [], [])
  let sub := finish_submission shuffle st r.1 r.2.1
  { state := sub.state, outcomes := r.2.2, champion := sub.champion }

/-! ## Bracket visualisation (`src/app.py` lines 393-409) -/

/-- Decimal digit character, as produced by Python string formatting. -/
def digit_char (d : ℕ) : Char :=
  match d with
  | 0 => '0'
  | 1 => '1'
  | 2 => '2'
  | 3 => '3'
  | 4 => '4'
  | 5 => '5'
  | 6 => '6'
  | 7 => '7'
  | 8 => '8'
  | _ => '9'

/-- Most-significant-first decimal digits of `n`; the first argument is
fuel (any value above `n` gives the digits of `n`), keeping the
definition structurally recursive. -/
def nat_digits_aux : ℕ → ℕ → List Char → List Char
  | 0, _, acc => acc
  | fuel + 1, n, acc =>
    if n < 10 then digit_char n :: acc
    else nat_digits_aux fuel (n / 10) (digit_char (n % 10) :: acc)

/-- The decimal numeral of `n`, as produced by Python `f"{n}"`. -/
def nat_repr (n : ℕ) : String :=
  String.mk (nat_digits_aux (n + 1) n [])

/-- The Graphviz node identifier `f"R{rnd}-M{idx}"` of a match
(`src/app.py` line 402). -/
def match_id (rnd idx : ℕ) : String :=
  "R" ++ nat_repr rnd ++ "-M" ++ nat_repr idx

/-- The Graphviz node label `f"R{rnd} M{idx}\n{p1} vs {p2}"` of a match
(`src/app.py` line 403). -/
def match_label (rnd idx : ℕ) (p1 p2 : String) : String :=
  "R" ++ nat_repr rnd ++ " M" ++ nat_repr idx ++ "\n" ++ p1 ++ " vs " ++ p2

/-- A Graphviz node: identifier, label, shape. -/
structure GraphNode where
  id : String
  label : String
  shape : String
  deriving Repr, DecidableEq

/-- A directed Graphviz edge, by node identifiers. -/
structure GraphEdge where
  src : String
  dst : String
  deriving Repr, DecidableEq

/-- The match nodes emitted for one history entry: Python
`enumerate(results, start=1)` is `List.enumFrom 1`. -/
def round_nodes (rnd : ℕ) (results : List (String × String × String)) : List GraphNode :=
  (results.enumFrom 1).map (fun e =>
    { id := match_id rnd e.1
      label := match_label rnd e.1 e.2.1 e.2.2.1
      shape := "ellipse" })

/-- The three edges emitted per match: `p1 -> match`, `p2 -> match`,
`match -> winner` (`src/app.py` lines 405-407). -/
def round_edges (rnd : ℕ) (results : List (String × String × String)) : List GraphEdge :=
  (results.enumFrom 1).flatMap (fun e =>
    [{ src := e.2.1, dst := match_id rnd e.1 },
     { src := e.2.2.1, dst := match_id rnd e.1 },
     { src := match_id rnd e.1, dst := e.2.2.2 }])

/-- Embedding of the bracket visualisation builder (`src/app.py` lines
393-409): one box node per initial player (name as both identifier and
label), then per history entry one ellipse node and three edges per
match.  Pure projection of `initial_players` and `history`. -/
def build_graph (initial_players : List String)
    (history : List (ℕ × List (String × String × String))) :
    List GraphNode × List GraphEdge :=
  (initial_players.map (fun p => { id := p, label := p, shape := "box" })
     ++ history.flatMap (fun e => round_nodes e.1 e.2),
   history.flatMap (fun e => round_edges e.1 e.2))

/-- The node identifiers of a graph, in emission order. -/
def node_ids (g : List GraphNode × List GraphEdge) : List String :=
  g.1.map GraphNode.id

/-- The match-node identifiers derived from a history, in emission
order. -/
def all_match_ids (history : List (ℕ × List (String × String × String))) : List String :=
  history.flatMap (fun e => (e.2.enumFrom 1).map (fun x => match_id e.1 x.1))

/-! ## Helper lemmas -/

theorem clog_two_two : Nat.clog 2 2 = 1 := by
  rw [Nat.clog_of_two_le (by norm_num) (by norm_num)]
  norm_num

theorem clog_two_three : Nat.clog 2 3 = 2 := by
  rw [Nat.clog_of_two_le (by norm_num) (by norm_num)]
  norm_num [clog_two_two]

theorem clog_two_four : Nat.clog 2 4 = 2 := by
  rw [Nat.clog_of_two_le (by norm_num) (by norm_num)]
  norm_num [clog_two_two]

theorem npot_two : next_power_of_two 2 = 2 := by
  unfold next_power_of_two
  norm_num [clog_two_two]

theorem npot_three : next_power_of_two 3 = 4 := by
  unfold next_power_of_two
  norm_num [clog_two_three]

theorem npot_four : next_power_of_two 4 = 4 := by
  unfold next_power_of_two
  norm_num [clog_two_four]

theorem npot_ge (n : ℕ) : n ≤ next_power_of_two n := by
  unfold next_power_of_two
  split
  · omega
  · exact Nat.le_pow_clog (by norm_num) n

theorem npot_le_two_mul (n : ℕ) (hn : 1 ≤ n) : next_power_of_two n ≤ 2 * n := by
  unfold next_power_of_two
  split
  · omega
  · rename_i h
    have hn2 : 1 < n := by omega
    have hc : 0 < Nat.clog 2 n := Nat.clog_pos (by norm_num) (by omega)
    have hlt : 2 ^ (Nat.clog 2 n).pred < n := Nat.pow_pred_clog_lt_self (by norm_num) hn2
    have heq : 2 ^ Nat.clog 2 n = 2 * 2 ^ (Nat.clog 2 n - 1) := by
      rw [← Nat.pow_succ']
      congr 1
      omega
    rw [heq]
    have := hlt
    simp only [Nat.pred_eq_sub_one] at this
    omega

theorem npot_even (n : ℕ) (hn : 2 ≤ n) : next_power_of_two n % 2 = 0 := by
  unfold next_power_of_two
  split
  · omega
  · have hc : 0 < Nat.clog 2 n := Nat.clog_pos (by norm_num) hn
    have heq : 2 ^ Nat.clog 2 n = 2 * 2 ^ (Nat.clog 2 n - 1) := by
      rw [← Nat.pow_succ']
      congr 1
      omega
    omega

theorem pair_up_length : ∀ l : List String, (pair_up l).length = l.length / 2
  | [] => by simp [pair_up]
  | [_] => by simp [pair_up]
  | _ :: _ :: rest => by
    simp only [pair_up, List.length_cons, pair_up_length rest]
    omega

theorem match_players_pair_up :
    ∀ l : List String, l.length % 2 = 0 → match_players (pair_up l) = l
  | [], _ => by simp [pair_up, match_players]
  | [_], h => by simp at h
  | a :: b :: rest, h => by
    have h' : rest.length % 2 = 0 := by
      simp only [List.length_cons] at h
      omega
    simp only [pair_up, match_players, match_players_pair_up rest h']

/-- Characterization of `create_round` on the initial round as one record: with
`s` the shuffled pool and `b = next_power_of_two |s| - |s|`, the byes are
`take b s`, the matches pair up `drop b s`, and the byes are appended to
the winners.  (When `b = 0` the two branches of the source coincide.) -/
theorem create_round_initial_eq (shuffle : List String → List String)
    (w pool : List String) :
    create_round shuffle w pool 1 true =
      { matches' := pair_up ((shuffle pool).drop
          (next_power_of_two (shuffle pool).length - (shuffle pool).length))
        byes := (shuffle pool).take
          (next_power_of_two (shuffle pool).length - (shuffle pool).length)
        winners := w ++ (shuffle pool).take
          (next_power_of_two (shuffle pool).length - (shuffle pool).length)
        error := false } := by
  by_cases hb : 0 < next_power_of_two (shuffle pool).length - (shuffle pool).length
  · simp [create_round, hb]
  · have hb0 : next_power_of_two (shuffle pool).length - (shuffle pool).length = 0 := by
      omega
    simp [create_round, hb, hb0]

/-! ## C6 -/

/-- C6: `create_round` with `initial = false` on a pool whose size is not
a power of two emits the validation error, produces no matches and no
byes, and leaves the winners list unchanged. -/
theorem create_round_non_initial_not_pow2 (shuffle : List String → List String)
    (winners pool : List String) (round_number : ℕ)
    (hperm : (shuffle pool).Perm pool)
    (hnp : is_power_of_two (pool.length : ℤ) = false) :
    create_round shuffle winners pool round_number false =
      { matches' := [], byes := [], winners := winners, error := true } := by
  have hlen : (shuffle pool).length = pool.length := hperm.length_eq
  simp [create_round, hlen, hnp]

/-- Witness for C6 at shuffle `id`, pool `["A", "B", "C"]`, round 2. -/
theorem create_round_non_initial_not_pow2_witness :
    create_round id ["w"] ["A", "B", "C"] 2 false =
      { matches' := [], byes := [], winners := ["w"], error := true } :=
  create_round_non_initial_not_pow2 id ["w"] ["A", "B", "C"] 2
    (List.Perm.refl _) (by decide)

/-! ## C3 -/

/-- C3 (claim refuted by the code): for an initial pool of exactly one
entrant, `create_round` generates no matches, as claimed — but the sole
entrant is NOT reported as champion: `next_power_of_two 1 = 1` means no
bye is granted, so the `Generate Round Fixtures` handler leaves `winners`
empty and `matches` empty; the champion announcement only ever happens in
the submission handlers when `len(winners) == 1`, which is false here,
and with no pending matches no submission can occur.  The claim's
champion clause describes the clear intent; the code is the slip. -/
theorem singleton_pool_no_champion :
    create_round id [] ["Ann"] 1 true =
      { matches' := [], byes := [], winners := [], error := false } ∧
    generate_fixtures id init_state ["Ann"] =
      ({ init_state with initial_players := ["Ann"], round_generated := true },
        GenMsg.ok) ∧
    (generate_fixtures id init_state ["Ann"]).1.winners.length ≠ 1 ∧
    (generate_fixtures id init_state ["Ann"]).1.matches' = [] :=
  ⟨by decide, by decide, by decide, by decide⟩

/-! ## C4 -/

/-- Concrete evaluation of `create_round` with the identity shuffle on
the three-entrant pool. -/
theorem create_round_ABC :
    create_round id [] ["A", "B", "C"] 1 true =
      { matches' := [("B", "C")], byes := ["A"], winners := ["A"], error := false } := by
  rw [create_round_initial_eq]
  norm_num [npot_three, pair_up]

/-- C4 is false as stated: for the pool `["A", "B", "C"]` (size `k = 3`)
the initial round yields `1` match, not `nextPowerOfTwo(3)/2 = 2`; and
for a singleton pool the sole entrant appears in neither the matches nor
the bye list (it does not appear exactly once). -/
theorem create_round_initial_counts_counterexample :
    (create_round id [] ["A", "B", "C"] 1 true).matches'.length = 1 ∧
    next_power_of_two 3 / 2 = 2 ∧
    (1 : ℕ) ≠ 2 ∧
    match_players (create_round id [] ["A"] 1 true).matches'
      ++ (create_round id [] ["A"] 1 true).byes = [] := by
  refine ⟨?_, ?_, by decide, by decide⟩
  · simp [create_round_ABC]
  · rw [npot_three]

/-- C4 (amended): for every non-empty initial pool of size `k ≤ 2 ^ 45`
— the bound under which the source's float computation of
`next_power_of_two` provably returns the exact smallest power of two
(see the definition's comment); for larger pools that computation can
return a target smaller than `k`, granting no byes and leaving an
entrant unpaired — and every shuffle that permutes the pool,
`create_round` yields exactly `nextPowerOfTwo(k) - k` byes and exactly
`(2*k - nextPowerOfTwo(k)) / 2` matches (this equals
`nextPowerOfTwo(k)/2` only when `k` is a power of two); for `k ≥ 2`
every original entrant appears exactly once across the matches and the
bye list, while for `k = 1` the sole entrant appears in neither; the
byes are appended to the winners list and no error is emitted. -/
theorem create_round_initial_counts (shuffle : List String → List String)
    (winners pool : List String)
    (hperm : (shuffle pool).Perm pool) (hne : pool ≠ [])
    (hbound : pool.length ≤ 2 ^ 45) :
    (create_round shuffle winners pool 1 true).byes.length
        = next_power_of_two pool.length - pool.length ∧
    (create_round shuffle winners pool 1 true).matches'.length
        = (2 * pool.length - next_power_of_two pool.length) / 2 ∧
    (2 ≤ pool.length →
      (match_players (create_round shuffle winners pool 1 true).matches'
        ++ (create_round shuffle winners pool 1 true).byes).Perm pool) ∧
    (create_round shuffle winners pool 1 true).winners
        = winners ++ (create_round shuffle winners pool 1 true).byes ∧
    (create_round shuffle winners pool 1 true).error = false := by
  have hlen : (shuffle pool).length = pool.length := hperm.length_eq
  rw [create_round_initial_eq]
  have hn1 : 1 ≤ pool.length := by
    cases pool with
    | nil => exact absurd rfl hne
    | cons a t => simp
  have hge : pool.length ≤ next_power_of_two pool.length := npot_ge pool.length
  have hle2 : next_power_of_two pool.length ≤ 2 * pool.length :=
    npot_le_two_mul pool.length hn1
  refine ⟨?_, ?_, ?_, rfl, rfl⟩
  · simp [hlen, List.length_take]
    omega
  · simp [hlen, pair_up_length, List.length_drop]
    omega
  · intro h2
    have heven : next_power_of_two pool.length % 2 = 0 := npot_even pool.length h2
    have hdrop_even :
        ((shuffle pool).drop
          (next_power_of_two (shuffle pool).length - (shuffle pool).length)).length % 2
          = 0 := by
      simp [hlen, List.length_drop]
      omega
    simp only [match_players_pair_up _ hdrop_even]
    have hsplit :
        (shuffle pool).take
            (next_power_of_two (shuffle pool).length - (shuffle pool).length)
          ++ (shuffle pool).drop
            (next_power_of_two (shuffle pool).length - (shuffle pool).length)
          = shuffle pool := List.take_append_drop _ _
    refine List.Perm.trans List.perm_append_comm ?_
    rw [hsplit]
    exact hperm

/-- Witness for C4 (amended) at shuffle `id`, pool `["A", "B", "C"]`
(of size `3 ≤ 2 ^ 45`). -/
theorem create_round_initial_counts_witness :
    (create_round id ["Q"] ["A", "B", "C"] 1 true).byes.length
        = next_power_of_two (["A", "B", "C"] : List String).length
          - (["A", "B", "C"] : List String).length ∧
    (create_round id ["Q"] ["A", "B", "C"] 1 true).matches'.length
        = (2 * (["A", "B", "C"] : List String).length
          - next_power_of_two (["A", "B", "C"] : List String).length) / 2 ∧
    (2 ≤ (["A", "B", "C"] : List String).length →
      (match_players (create_round id ["Q"] ["A", "B", "C"] 1 true).matches'
        ++ (create_round id ["Q"] ["A", "B", "C"] 1 true).byes).Perm
        ["A", "B", "C"]) ∧
    (create_round id ["Q"] ["A", "B", "C"] 1 true).winners
        = ["Q"] ++ (create_round id ["Q"] ["A", "B", "C"] 1 true).byes ∧
    (create_round id ["Q"] ["A", "B", "C"] 1 true).error = false :=
  create_round_initial_counts id ["Q"] ["A", "B", "C"]
    (List.Perm.refl _) (by decide) (by decide)

/-! ## The submission loop, described in closed form -/

/-- The winners appended by the score loop: one winner per non-tied
entry, in submission order. -/
def committed_winners (scores : List (String × String × ℤ × ℤ)) : List String :=
  scores.filterMap (fun e =>
    if e.2.2.1 = e.2.2.2 then none
    else some (if e.2.2.1 > e.2.2.2 then e.1 else e.2.1))

/-- The `current_round_results` buffer built by the score loop: one
`(p1, p2, winner)` triple per non-tied entry, in submission order. -/
def committed_results (scores : List (String × String × ℤ × ℤ)) :
    List (String × String × String) :=
  scores.filterMap (fun e =>
    if e.2.2.1 = e.2.2.2 then none
    else some (e.1, e.2.1, if e.2.2.1 > e.2.2.2 then e.1 else e.2.1))

/-- Whether some submitted entry has equal scores. -/
def any_tie (scores : List (String × String × ℤ × ℤ)) : Bool :=
  scores.any (fun e => decide (e.2.2.1 = e.2.2.2))

theorem score_foldl_eq :
    ∀ (scores : List (String × String × ℤ × ℤ))
      (w : List String) (b : List (String × String × String)) (t : Bool),
      scores.foldl score_step (w, b, t)
        = (w ++ committed_winners scores, b ++ committed_results scores,
            t || any_tie scores)
  | [], w, b, t => by
    simp [committed_winners, committed_results, any_tie]
  | e :: rest, w, b, t => by
    by_cases h : e.2.2.1 = e.2.2.2
    · simp only [List.foldl_cons, score_step, if_pos h,
        score_foldl_eq rest, committed_winners, committed_results, any_tie,
        List.filterMap_cons, List.any_cons, h, decide_True, Bool.true_or,
        Bool.or_true, if_pos]
    · simp only [List.foldl_cons, score_step, if_neg h,
        score_foldl_eq rest, committed_winners, committed_results, any_tie,
        List.filterMap_cons, List.any_cons, h]
      simp [h, List.append_assoc]

/-! ## C1 -/

/-- C1 is false as stated: a two-match batch in which the first pair ties
leaves `history` and `matches` untouched, but the winner of the non-tied
second pair (`Cy`) has already been appended to `winners` before
`st.stop()` runs, so the winners sequence does change. -/
theorem submit_tie_counterexample :
    (submit_all_results id
        { init_state with
            matches' := [("Ann", "Bob"), ("Cy", "Dee")], round_generated := true }
        [("Ann", "Bob", 2, 2), ("Cy", "Dee", 3, 1)]).state.winners = ["Cy"] ∧
    (["Cy"] : List String) ≠ [] ∧
    (submit_all_results id
        { init_state with
            matches' := [("Ann", "Bob"), ("Cy", "Dee")], round_generated := true }
        [("Ann", "Bob", 2, 2), ("Cy", "Dee", 3, 1)]).state.history = [] ∧
    (submit_all_results id
        { init_state with
            matches' := [("Ann", "Bob"), ("Cy", "Dee")], round_generated := true }
        [("Ann", "Bob", 2, 2), ("Cy", "Dee", 3, 1)]).state.matches'
      = [("Ann", "Bob"), ("Cy", "Dee")] ∧
    (submit_all_results id
        { init_state with
            matches' := [("Ann", "Bob"), ("Cy", "Dee")], round_generated := true }
        [("Ann", "Bob", 2, 2), ("Cy", "Dee", 3, 1)]).anyTies = true := by
  refine ⟨by decide, by decide, by decide, by decide, by decide⟩

/-- C1 (amended): when any submitted entry of the batch ties, the handler
stops after the score loop: `history`, `pendingMatches`, `round`, `byes`
and `initial_players` are unchanged and no next round is drawn, but the
winners of the non-tied entries of the batch have already been appended
to the winners sequence, in submission order. -/
theorem submit_tie_batch_behavior (shuffle : List String → List String)
    (st : BracketState) (scores : List (String × String × ℤ × ℤ))
    (ht : any_tie scores = true) :
    submit_all_results shuffle st scores =
      { state := { st with winners := st.winners ++ committed_winners scores }
        anyTies := true
        champion := none } := by
  unfold submit_all_results
  rw [score_foldl_eq]
  simp [ht]

/-- Witness for C1 (amended) at a concrete tying batch. -/
theorem submit_tie_batch_behavior_witness :
    submit_all_results id init_state [("P", "Q", 1, 1), ("R", "S", 0, 2)] =
      { state := { init_state with
          winners := [] ++ committed_winners [("P", "Q", 1, 1), ("R", "S", 0, 2)] }
        anyTies := true
        champion := none } :=
  submit_tie_batch_behavior id init_state
    [("P", "Q", 1, 1), ("R", "S", 0, 2)] (by decide)

/-! ## C2 -/

/-- C2 is false as stated: after a tie-free submission that leaves three
winners (neither one winner nor a power of two), the handler raises no
error of any kind and silently leaves the state as-is apart from the
appended winners and history entry: `round` and `matches` are unchanged,
no champion is announced, and no tie is flagged — there is no
`InvariantError` in the code. -/
theorem submit_no_invariant_error_counterexample :
    submit_all_results id
        { init_state with
            matches' := [("A", "B")], winners := ["X", "Y"], round_generated := true }
        [("A", "B", 1, 0)] =
      { state := { init_state with
          matches' := [("A", "B")]
          winners := ["X", "Y", "A"]
          history := [(1, [("A", "B", "A")])]
          round_generated := true }
        anyTies := false
        champion := none } ∧
    (["X", "Y", "A"] : List String).length = 3 ∧
    is_power_of_two ((3 : ℕ) : ℤ) = false ∧
    (3 : ℕ) ≠ 1 := by
  refine ⟨by decide, by decide, by decide, by decide⟩

/-- C2 (amended): after a tie-free submission whose resulting winners
count is neither `1` nor a power of two, the handler does not fail — the
code has no `InvariantError` — and instead silently leaves the state
as-is apart from the appended winners and the appended history entry:
`round`, `matches`, `byes` and `initial_players` are unchanged, no
champion is announced, and no next round is drawn. -/
theorem submit_no_tie_fallthrough (shuffle : List String → List String)
    (st : BracketState) (scores : List (String × String × ℤ × ℤ))
    (hnt : any_tie scores = false)
    (hlen1 : (st.winners ++ committed_winners scores).length ≠ 1)
    (hnp : is_power_of_two
      (((st.winners ++ committed_winners scores).length : ℕ) : ℤ) = false) :
    submit_all_results shuffle st scores =
      { state := { st with
          winners := st.winners ++ committed_winners scores
          history := if committed_results scores = [] then st.history
            else st.history ++ [(st.round, committed_results scores)] }
        anyTies := false
        champion := none } := by
  unfold submit_all_results finish_submission
  rw [score_foldl_eq]
  have hlen1' : st.winners.length + (committed_winners scores).length ≠ 1 := by
    simpa using hlen1
  have hnp' : is_power_of_two
      ((st.winners.length : ℤ) + ((committed_winners scores).length : ℤ)) = false := by
    simpa using hnp
  simp [hnt, hlen1', hnp']

/-- Witness for C2 (amended): one tie-free entry submitted on top of two
leftover winners gives three winners, which is neither one nor a power of
two. -/
theorem submit_no_tie_fallthrough_witness :
    any_tie [("A", "B", 1, 0)] = false ∧
    ((["X", "Y"] : List String) ++ committed_winners [("A", "B", 1, 0)]).length ≠ 1 ∧
    is_power_of_two
      ((((["X", "Y"] : List String) ++ committed_winners [("A", "B", 1, 0)]).length : ℕ) : ℤ)
      = false ∧
    submit_all_results id
        { init_state with
            matches' := [("A", "B")], winners := ["X", "Y"], round_generated := true }
        [("A", "B", 1, 0)] =
      { state := { { init_state with
            matches' := [("A", "B")], winners := ["X", "Y"], round_generated := true } with
          winners := (["X", "Y"] : List String) ++ committed_winners [("A", "B", 1, 0)]
          history := if committed_results [("A", "B", 1, 0)] = [] then []
            else [] ++ [(1, committed_results [("A", "B", 1, 0)])] }
        anyTies := false
        champion := none } :=
  ⟨by decide, by decide, by decide,
    submit_no_tie_fallthrough id
      { init_state with
          matches' := [("A", "B")], winners := ["X", "Y"], round_generated := true }
      [("A", "B", 1, 0)] (by decide) (by decide) (by decide)⟩

/-! ## The pasted-results loop, described in closed form -/

/-- The winners committed by the pasted-results loop: one per line that
parses and is not a tie, in line order. -/
def paste_winners (lines : List String) : List String :=
  lines.filterMap (fun line =>
    match parse_line line with
    | none => none
    | some (p1, p2, s1, s2) =>
      if s1 = s2 then none else some (if s1 > s2 then p1 else p2))

/-- The `current_round_results` buffer committed by the pasted-results
loop: one triple per line that parses and is not a tie, in line order. -/
def paste_results (lines : List String) : List (String × String × String) :=
  lines.filterMap (fun line =>
    match parse_line line with
    | none => none
    | some (p1, p2, s1, s2) =>
      if s1 = s2 then none else some (p1, p2, if s1 > s2 then p1 else p2))

/-- The report the handler emits for one pasted line. -/
def line_outcome (line : String) : LineOutcome :=
  match parse_line line with
  | none => LineOutcome.parse_error line
  | some (p1, p2, s1, s2) =>
    if s1 = s2 then LineOutcome.tie p1 p2
    else LineOutcome.win p1 p2 s1 s2 (if s1 > s2 then p1 else p2)

theorem paste_foldl_eq :
    ∀ (lines : List String) (w : List String)
      (b : List (String × String × String)) (o : List LineOutcome),
      lines.foldl paste_step (w, b, o)
        = (w ++ paste_winners lines, b ++ paste_results lines,
            o ++ lines.map line_outcome)
  | [], w, b, o => by
    simp [paste_winners, paste_results]
  | line :: rest, w, b, o => by
    cases hp : parse_line line with
    | none =>
      simp only [List.foldl_cons, paste_step, hp, paste_foldl_eq rest,
        paste_winners, paste_results, line_outcome, List.filterMap_cons,
        List.map_cons, List.append_assoc, List.singleton_append]
    | some v =>
      obtain ⟨p1, p2, s1, s2⟩ := v
      by_cases h : s1 = s2
      · simp only [List.foldl_cons, paste_step, hp, if_pos h,
          paste_foldl_eq rest, paste_winners, paste_results, line_outcome,
          List.filterMap_cons, List.map_cons, List.append_assoc,
          List.singleton_append]
      · simp only [List.foldl_cons, paste_step, hp, if_neg h,
          paste_foldl_eq rest, paste_winners, paste_results, line_outcome,
          List.filterMap_cons, List.map_cons, List.append_assoc,
          List.singleton_append]

theorem parse_tie_line : parse_line "Ann vs Bob = 2-2" = some ("Ann", "Bob", 2, 2) := by
  decide

/-! ## C8 -/

/-- C8: in the pasted-results path each line is processed independently:
every line yields exactly one per-line report; a line that fails the
expected shape contributes only a parse error for itself and leaves the
loop state untouched, so the remaining lines are processed exactly as if
the bad line were the only change; and the well-formed line
`"Ann vs Bob = 2-2"` parses successfully and is reported as a tie at the
result-application stage, not as a parse error, committing nothing. -/
theorem pasted_lines_processed_independently :
    (∀ (w : List String) (b : List (String × String × String)) (lines : List String),
      (lines.foldl paste_step (w, b, [])).2.2.length = lines.length) ∧
    (∀ (w : List String) (b : List (String × String × String))
      (o : List LineOutcome) (line : String) (rest : List String),
      parse_line line = none →
      (line :: rest).foldl paste_step (w, b, o)
        = rest.foldl paste_step (w, b, o ++ [LineOutcome.parse_error line])) ∧
    parse_line "Ann vs Bob = 2-2" = some ("Ann", "Bob", 2, 2) ∧
    line_outcome "Ann vs Bob = 2-2" = LineOutcome.tie "Ann" "Bob" ∧
    (∀ (w : List String) (b : List (String × String × String)) (o : List LineOutcome),
      ["Ann vs Bob = 2-2"].foldl paste_step (w, b, o)
        = (w, b, o ++ [LineOutcome.tie "Ann" "Bob"])) := by
  refine ⟨?_, ?_, parse_tie_line, ?_, ?_⟩
  · intro w b lines
    rw [paste_foldl_eq]
    simp
  · intro w b o line rest hp
    simp only [List.foldl_cons, paste_step, hp]
  · simp only [line_outcome, parse_tie_line]
    norm_num
  · intro w b o
    simp only [List.foldl_cons, List.foldl_nil, paste_step, parse_tie_line]
    norm_num

/-- Witness for C8 at the malformed line `"garbage"`. -/
theorem pasted_lines_processed_independently_witness :
    parse_line "garbage" = none ∧
    ("garbage" :: []).foldl paste_step
        (([] : List String), ([] : List (String × String × String)),
          ([] : List LineOutcome))
      = ([] : List String).foldl paste_step
          ([], [], [] ++ [LineOutcome.parse_error "garbage"]) :=
  ⟨by decide,
    pasted_lines_processed_independently.2.1 [] [] [] "garbage" [] (by decide)⟩

/-! ## C10 -/

/-- C10: every pasted batch that commits at least one result appends
exactly one entry to `history`, tagged with the current (unincremented)
round number and with no check against existing entries for that round;
concretely, pasting three result lines from a fresh session leaves three
winners (not a power of two, so the round stays 1), and pasting a fourth
line then appends a second entry tagged round 1, after which the graph
builder derives the identifier `R1-M1` for two distinct match nodes. -/
theorem pasted_batch_duplicate_round_entries :
    (∀ (shuffle : List String → List String) (st : BracketState)
      (lines : List String),
      paste_results lines ≠ [] →
      (process_pasted shuffle st lines).state.history
        = st.history ++ [(st.round, paste_results lines)]) ∧
    (process_pasted id (process_pasted id init_state
        ["A vs B = 1-0", "C vs D = 1-0", "E vs F = 1-0"]).state
        ["A vs C = 3-0"]).state.history.map Prod.fst = [1, 1] ∧
    ¬ (node_ids (build_graph []
        (process_pasted id (process_pasted id init_state
          ["A vs B = 1-0", "C vs D = 1-0", "E vs F = 1-0"]).state
          ["A vs C = 3-0"]).state.history)).Nodup ∧
    (node_ids (build_graph []
        (process_pasted id (process_pasted id init_state
          ["A vs B = 1-0", "C vs D = 1-0", "E vs F = 1-0"]).state
          ["A vs C = 3-0"]).state.history)).count "R1-M1" = 2 := by
  refine ⟨?_, by decide, by decide, by decide⟩
  intro shuffle st lines h
  unfold process_pasted
  rw [paste_foldl_eq]
  unfold finish_submission
  simp only [List.nil_append, if_neg h]
  split
  · rfl
  · split
    · rfl
    · rfl

/-- Witness for C10 at a single committing line. -/
theorem pasted_batch_duplicate_round_entries_witness :
    paste_results ["A vs B = 1-0"] ≠ [] ∧
    (process_pasted id init_state ["A vs B = 1-0"]).state.history
      = init_state.history ++ [(init_state.round, paste_results ["A vs B = 1-0"])] :=
  ⟨by decide,
    pasted_batch_duplicate_round_entries.1 id init_state ["A vs B = 1-0"] (by decide)⟩

/-! ## Decimal numerals: digit facts for identifier uniqueness -/

theorem data_mk (l : List Char) : (String.mk l).data = l := rfl

theorem digit_char_toNat (d : ℕ) (hd : d < 10) : (digit_char d).toNat = 48 + d := by
  interval_cases d <;> rfl

theorem digit_char_ne_dash (d : ℕ) : digit_char d ≠ '-' := by
  unfold digit_char
  split <;> decide

theorem nat_digits_aux_append :
    ∀ (fuel n : ℕ) (acc : List Char),
      nat_digits_aux fuel n acc = nat_digits_aux fuel n [] ++ acc
  | 0, n, acc => by simp [nat_digits_aux]
  | fuel + 1, n, acc => by
    by_cases h : n < 10
    · simp [nat_digits_aux, h]
    · simp only [nat_digits_aux, if_neg h]
      rw [nat_digits_aux_append fuel (n / 10) (digit_char (n % 10) :: acc),
          nat_digits_aux_append fuel (n / 10) [digit_char (n % 10)]]
      simp

theorem nat_digits_aux_digits :
    ∀ (fuel n : ℕ) (acc : List Char),
      (∀ c ∈ acc, ∃ d, c = digit_char d) →
      ∀ c ∈ nat_digits_aux fuel n acc, ∃ d, c = digit_char d
  | 0, n, acc, hacc => by simpa [nat_digits_aux] using hacc
  | fuel + 1, n, acc, hacc => by
    by_cases h : n < 10
    · simp only [nat_digits_aux, if_pos h]
      intro c hc
      rcases List.mem_cons.1 hc with rfl | hm
      · exact ⟨n, rfl⟩
      · exact hacc c hm
    · simp only [nat_digits_aux, if_neg h]
      refine nat_digits_aux_digits fuel (n / 10) _ ?_
      intro c hc
      rcases List.mem_cons.1 hc with rfl | hm
      · exact ⟨n % 10, rfl⟩
      · exact hacc c hm

theorem nat_digits_aux_val :
    ∀ (fuel n : ℕ), n < fuel →
      List.foldl (fun a c => 10 * a + (c.toNat - 48)) 0 (nat_digits_aux fuel n []) = n
  | 0, n, h => absurd h (by omega)
  | fuel + 1, n, h => by
    by_cases h10 : n < 10
    · simp only [nat_digits_aux, if_pos h10, List.foldl_cons, List.foldl_nil]
      rw [digit_char_toNat n h10]
      omega
    · simp only [nat_digits_aux, if_neg h10]
      rw [nat_digits_aux_append, List.foldl_append,
        nat_digits_aux_val fuel (n / 10) (by omega)]
      simp only [List.foldl_cons, List.foldl_nil]
      rw [digit_char_toNat (n % 10) (by omega)]
      omega

theorem nat_digits_no_dash (n : ℕ) : ∀ c ∈ nat_digits_aux (n + 1) n [], c ≠ '-' := by
  intro c hc
  obtain ⟨d, rfl⟩ := nat_digits_aux_digits (n + 1) n [] (by simp) c hc
  exact digit_char_ne_dash d

theorem append_dash_inj :
    ∀ (l1 l1' l2 l2' : List Char),
      (∀ c ∈ l1, c ≠ '-') → (∀ c ∈ l1', c ≠ '-') →
      l1 ++ '-' :: l2 = l1' ++ '-' :: l2' → l1 = l1' ∧ l2 = l2'
  | [], [], l2, l2', _, _, h => ⟨rfl, by simpa using h⟩
  | [], c' :: t', l2, l2', h1, h1', h => by
    exfalso
    simp only [List.nil_append, List.cons_append, List.cons.injEq] at h
    exact h1' c' (by simp) h.1.symm
  | c :: t, [], l2, l2', h1, h1', h => by
    exfalso
    simp only [List.nil_append, List.cons_append, List.cons.injEq] at h
    exact h1 c (by simp) h.1
  | c :: t, c' :: t', l2, l2', h1, h1', h => by
    simp only [List.cons_append, List.cons.injEq] at h
    obtain ⟨hc, ht⟩ := h
    obtain ⟨ih1, ih2⟩ := append_dash_inj t t' l2 l2'
      (fun x hx => h1 x (List.mem_cons_of_mem _ hx))
      (fun x hx => h1' x (List.mem_cons_of_mem _ hx)) ht
    exact ⟨by rw [hc, ih1], ih2⟩

theorem match_id_data (r i : ℕ) :
    (match_id r i).data
      = 'R' :: (nat_digits_aux (r + 1) r []
          ++ '-' :: 'M' :: nat_digits_aux (i + 1) i []) := by
  simp only [match_id, nat_repr, String.data_append, data_mk]
  simp

theorem match_id_inj (r i r' i' : ℕ) (h : match_id r i = match_id r' i') :
    r = r' ∧ i = i' := by
  have hd := congrArg String.data h
  rw [match_id_data, match_id_data] at hd
  simp only [List.cons.injEq, true_and] at hd
  obtain ⟨h1, h2⟩ := append_dash_inj _ _ _ _
    (nat_digits_no_dash r) (nat_digits_no_dash r') hd
  have h2' : nat_digits_aux (i + 1) i [] = nat_digits_aux (i' + 1) i' [] := by
    simpa using h2
  constructor
  · have hm := nat_digits_aux_val (r + 1) r (by omega)
    have hn := nat_digits_aux_val (r' + 1) r' (by omega)
    rw [h1] at hm
    omega
  · have hm := nat_digits_aux_val (i + 1) i (by omega)
    have hn := nat_digits_aux_val (i' + 1) i' (by omega)
    rw [h2'] at hm
    omega

/-! ## C7 -/

theorem node_ids_build_graph (ip : List String)
    (h : List (ℕ × List (String × String × String))) :
    node_ids (build_graph ip h) = ip ++ all_match_ids h := by
  simp [node_ids, build_graph, all_match_ids, round_nodes,
    List.map_flatMap, List.map_map, Function.comp_def]

theorem round_ids_nodup (rnd k : ℕ) (results : List (String × String × String)) :
    ((results.enumFrom k).map (fun x => match_id rnd x.1)).Nodup := by
  have hmm : (results.enumFrom k).map (fun x => match_id rnd x.1)
      = ((results.enumFrom k).map Prod.fst).map (match_id rnd) := by
    rw [List.map_map]
    rfl
  rw [hmm, List.enumFrom_map_fst]
  refine List.Nodup.map ?_ (List.nodup_range' k results.length)
  intro a b hab
  exact (match_id_inj rnd a rnd b hab).2

theorem all_match_ids_nodup (h : List (ℕ × List (String × String × String)))
    (hrounds : (h.map Prod.fst).Nodup) : (all_match_ids h).Nodup := by
  unfold all_match_ids
  rw [List.nodup_flatMap]
  constructor
  · intro e _
    exact round_ids_nodup e.1 1 e.2
  · have hp : h.Pairwise (fun a b => a.1 ≠ b.1) := List.pairwise_map.mp hrounds
    refine hp.imp ?_
    intro a b hne
    intro x hxa hxb
    obtain ⟨ea, -, hea⟩ := List.mem_map.mp hxa
    obtain ⟨eb, -, heb⟩ := List.mem_map.mp hxb
    exact hne (match_id_inj a.1 ea.1 b.1 eb.1 (hea.trans heb.symm)).1

/-- C7 (amended): given pairwise-distinct entrant names, a history whose
round numbers are pairwise distinct, and no entrant name coinciding with
any derived `R{round}-M{idx}` match identifier, `buildGraph` produces
pairwise-distinct node identifiers.  (The two extra provisos are forced
by the counterexample: the code derives match identifiers only from the
round number and the 1-based match index, and player nodes use the raw
name, so a repeated round number in `history` or an entrant literally
named like a match identifier makes two distinct entities share one
identifier.) -/
theorem build_graph_unique_ids (initial_players : List String)
    (history : List (ℕ × List (String × String × String)))
    (hplayers : initial_players.Nodup)
    (hrounds : (history.map Prod.fst).Nodup)
    (hsep : ∀ p ∈ initial_players, p ∉ all_match_ids history) :
    (node_ids (build_graph initial_players history)).Nodup := by
  rw [node_ids_build_graph, List.nodup_append]
  exact ⟨hplayers, all_match_ids_nodup history hrounds,
    List.disjoint_left.mpr hsep⟩

/-- Witness for C7 (amended) on a one-round, two-entrant history. -/
theorem build_graph_unique_ids_witness :
    (["Ann", "Bob"] : List String).Nodup ∧
    (([(1, [("Ann", "Bob", "Ann")])]
        : List (ℕ × List (String × String × String))).map Prod.fst).Nodup ∧
    (∀ p ∈ (["Ann", "Bob"] : List String),
      p ∉ all_match_ids [(1, [("Ann", "Bob", "Ann")])]) ∧
    (node_ids (build_graph ["Ann", "Bob"] [(1, [("Ann", "Bob", "Ann")])])).Nodup :=
  ⟨by decide, by decide, by decide,
    build_graph_unique_ids ["Ann", "Bob"] [(1, [("Ann", "Bob", "Ann")])]
      (by decide) (by decide) (by decide)⟩

/-- Concrete evaluation of `create_round` with the identity shuffle on a
two-entrant pool containing a player literally named `R1-M1`. -/
theorem create_round_RM :
    create_round id [] ["R1-M1", "B"] 1 true =
      { matches' := [("R1-M1", "B")], byes := [], winners := [], error := false } := by
  rw [create_round_initial_eq]
  norm_num [npot_two, pair_up]

/-- Concrete evaluation of the fixtures handler on the two-entrant pool
`["R1-M1", "B"]` from a fresh session. -/
theorem generate_fixtures_RM :
    generate_fixtures id init_state ["R1-M1", "B"] =
      ({ init_state with
          initial_players := ["R1-M1", "B"]
          matches' := [("R1-M1", "B")]
          round_generated := true }, GenMsg.ok) := by
  unfold generate_fixtures
  norm_num [init_state]
  rw [create_round_RM]
  decide

/-- C7 is false as stated: the pool `["R1-M1", "B"]` has pairwise-distinct
entrant names, and the ordinary engine flow — generate the round-1
fixtures, then submit the single result — reaches a history whose graph
gives the player leaf node `R1-M1` and the round-1 match node the same
identifier `"R1-M1"`, even though they are distinct entities (a box
player node and an ellipse match node). -/
theorem build_graph_unique_ids_counterexample :
    (["R1-M1", "B"] : List String).Nodup ∧
    generate_fixtures id init_state ["R1-M1", "B"] =
      ({ init_state with
          initial_players := ["R1-M1", "B"]
          matches' := [("R1-M1", "B")]
          round_generated := true }, GenMsg.ok) ∧
    submit_all_results id
        { init_state with
            initial_players := ["R1-M1", "B"]
            matches' := [("R1-M1", "B")]
            round_generated := true }
        [("R1-M1", "B", 0, 1)] =
      { state := { init_state with
            initial_players := ["R1-M1", "B"]
            matches' := [("R1-M1", "B")]
            round_generated := true
            winners := ["B"]
            history := [(1, [("R1-M1", "B", "B")])] }
        anyTies := false
        champion := some "B" } ∧
    node_ids (build_graph ["R1-M1", "B"] [(1, [("R1-M1", "B", "B")])])
      = ["R1-M1", "B", "R1-M1"] ∧
    ¬ (["R1-M1", "B", "R1-M1"] : List String).Nodup ∧
    (build_graph ["R1-M1", "B"] [(1, [("R1-M1", "B", "B")])]).1.map GraphNode.shape
      = ["box", "box", "ellipse"] :=
  ⟨by decide, generate_fixtures_RM, by decide, by decide, by decide, by decide⟩
